import Mathlib

/-!
Verification of the miqot Umroh-package single-page application.

This file shallowly embeds the data model and operations of the repository:
the filter/group utilities (`filterPackages`, `filterPackagesAdvanced`,
`groupByMonth`, `getMinPrice`), the data service (`transformPackage`,
`getPackages`, `getMinimumPrice`, `sortByDepartureDate`), the App
component's derived filtered-list computation, and the three Cloudflare
Pages edge-function proxies.

Modelling conventions:
* JavaScript numbers that can be `NaN` (results of `parseInt`) are
  `Option Int`, with `none` standing for `NaN`; comparisons and sums
  propagate `NaN` exactly as the JS operators do.
* Date strings are abstracted as year/month/day triples (`DateYMD`); the
  millisecond timestamp `Date.getTime()` is replaced by the
  order-isomorphic key `dateKey` (only comparisons of timestamps occur in
  the source), and the raw stored string is recovered by `isoStr`.
* `Array.prototype.sort` (stable since ES2019) is modelled by
  `List.insertionSort`, which is stable and produces a sorted permutation.
* JS objects used as string records (`Record<string, ...>`) are
  association lists in entry order; `Object.values` is `map Prod.snd`.
-/

-- ============================================
-- JS primitive models
-- ============================================

/-- Digits-prefix accumulator for `parseInt`. -/
def digitsToNat (ds : List Char) : Nat :=
  ds.foldl (fun n c => n * 10 + (c.toNat - 48)) 0

/-- Model of `parseInt(s, 10)`: skip leading whitespace, optional sign, longest
digit prefix; `none` models `NaN` (no digit found). -/
def jsParseInt (s : String) : Option Int :=
  let cs := s.data.dropWhile (fun c => c = ' ' ∨ c = '\t' ∨ c = '\n' ∨ c = '\r')
  let signAndRest : Int × List Char :=
    match cs with
    | '-' :: rest => (-1, rest)
    | '+' :: rest => (1, rest)
    | _ => (1, cs)
  let ds := signAndRest.2.takeWhile Char.isDigit
  if ds.isEmpty then none
  else some (signAndRest.1 * (digitsToNat ds : Int))

/-- Substring scan: does `s` start with `q`? (model of the prefix step of
`String.prototype.includes`). -/
def beginsWith : List Char → List Char → Bool
  | [], _ => true
  | _ :: _, [] => false
  | a :: as, b :: bs => a = b && beginsWith as bs

/-- Scan of `s` for an occurrence of `q` starting at each position. -/
def strIncludesGo (q : List Char) : List Char → Bool
  | [] => beginsWith q []
  | c :: cs => beginsWith q (c :: cs) || strIncludesGo q cs

/-- Model of `s.includes(q)`: `q` occurs contiguously in `s`. -/
def strIncludes (s q : String) : Bool :=
  strIncludesGo q.data s.data

/-- Model of `s.trim()`: strip leading and trailing whitespace. -/
def jsTrim (s : String) : String :=
  String.mk (((s.data.dropWhile Char.isWhitespace).reverse.dropWhile
    Char.isWhitespace).reverse)

/-- Model of `s.toLowerCase()` (ASCII case mapping). -/
def jsToLower (s : String) : String := String.mk (s.data.map Char.toLower)

/-- Model of `s.toUpperCase()` (ASCII case mapping). -/
def jsToUpper (s : String) : String := String.mk (s.data.map Char.toUpper)

/-- Model of `s.split('-')`. -/
def splitHyphen (cur : List Char) : List Char -> List (List Char)
  | [] => [cur.reverse]
  | c :: cs =>
    if c = '-' then cur.reverse :: splitHyphen [] cs
    else splitHyphen (c :: cur) cs

def splitHyphenStr (s : String) : List String :=
  (splitHyphen [] s.data).map fun cs => String.mk cs

/-- Model of `s.split(' - ')`: non-overlapping left-to-right scan for the
three-character separator. -/
def splitSpaceDashSpace (cur : List Char) : List Char -> List (List Char)
  | ' ' :: '-' :: ' ' :: rest => cur.reverse :: splitSpaceDashSpace [] rest
  | c :: rest => splitSpaceDashSpace (c :: cur) rest
  | [] => [cur.reverse]

def splitSpaceDashSpaceStr (s : String) : List String :=
  (splitSpaceDashSpace [] s.data).map fun cs => String.mk cs

/-- JS `NaN`-propagating addition on numbers (`none` is `NaN`). -/
def oadd : Option Int → Option Int → Option Int
  | some a, some b => some (a + b)
  | _, _ => none

/-- JS comparison `x > 0` where `x` may be `NaN` (`NaN > 0` is `false`). -/
def ogt0 : Option Int → Bool
  | some n => 0 < n
  | none => false

-- ============================================
-- Dates
-- ============================================

/-- Abstraction of a stored `YYYY-MM-DD` date string. -/
structure DateYMD where
  year : Nat
  month : Nat
  day : Nat
deriving DecidableEq, Repr

/-- Order-isomorphic stand-in for `new Date(s).getTime()` on well-formed
dates (months < 100, days < 100). -/
def dateKey (d : DateYMD) : Nat :=
  d.year * 10000 + d.month * 100 + d.day

/-- Model of `String(n).padStart(2, '0')`. -/
def pad2 (n : Nat) : String :=
  if n < 10 then "0" ++ toString n else toString n

/-- The raw `YYYY-MM-DD` string the date stands for. -/
def isoStr (d : DateYMD) : String :=
  toString d.year ++ "-" ++ pad2 d.month ++ "-" ++ pad2 d.day

-- ============================================
-- Data model (src/types, UmrohPackage)
-- ============================================

/-- Room-type pricing of one tier; values are raw price strings,
`none` when the field is absent. -/
structure RoomPricing where
  Single : Option String := none
  Double : Option String := none
  Triple : Option String := none
  Quard : Option String := none
  Infant : Option String := none
deriving DecidableEq, Repr

/-- One flight leg (`keberangkatan` / `kepulangan`). -/
structure FlightLeg where
  tgl : DateYMD
  jam : String
  rute : String
  kodePenerbangan : String
deriving DecidableEq, Repr

/-- The transformed travel-package record (`UmrohPackage`).
Seat counts come from `parseInt` and may be `NaN`, hence `Option Int`.
`harga` and `hotel` are string-keyed records in entry order; a hotel
tier's info is itself a raw string record. -/
structure Pkg where
  jadwalId : String
  nama : String
  isPromo : Bool
  seatTotal : Option Int
  seatSisa : Option Int
  maskapai : String
  keberangkatan : FlightLeg
  kepulangan : FlightLeg
  manasikTanggal : String
  manasikJam : String
  brosurUrl : String
  itineraryUrl : String
  perlengkapanHarga : String
  harga : List (String × RoomPricing)
  hotel : List (String × List (String × String))
deriving DecidableEq, Repr

-- ============================================
-- Filter utilities (filter-logic module)
-- ============================================

inductive FilterMode
  | available
  | landing
  | promo
  | dataPerBulan
  | semuaData
deriving DecidableEq, Repr

/-- Model of `FilterParams`; `secondaryValue` is optional, and the empty string is
falsy in the source's `!secondaryValue` checks. -/
structure FilterParams where
  mode : FilterMode
  secondaryValue : Option String := none
deriving DecidableEq, Repr

/-- JS falsiness of the optional `secondaryValue` string. -/
def falsyStr : Option String → Bool
  | none => true
  | some s => s = ""

/-- Model of `CITY_NAMES` mapping airport codes to city names. -/
def cityNames : List (String × String) :=
  [("JED", "Jeddah"), ("MED", "Madinah"), ("CGK", "Jakarta"),
   ("HAK", "Haikou"), ("IST", "Istanbul"), ("CAI", "Cairo")]

/-- Model of `MONTH_NAMES_ID`. -/
def monthNamesId : List String :=
  ["Januari", "Februari", "Maret", "April", "Mei", "Juni",
   "Juli", "Agustus", "September", "Oktober", "November", "Desember"]

/-- Model of `HIJRI_MONTH_NAMES`. -/
def hijriMonthNames : List String :=
  ["Muharram", "Safar", "Rabiul Awal", "Rabiul Akhir",
   "Jumadil Awal", "Jumadil Akhir", "Rajab", "Syaban",
   "Ramadhan", "Syawal", "Dzulqaidah", "Dzulhijjah"]

/-- Model of `route.split(/\s*[-–]\s*/)`: split on a dash character. The `\s*` of
the regex only absorbs whitespace adjacent to the dash; every use of a
part in the source `trim`s it, so whitespace is left in the parts here. -/
def splitDash (cur : List Char) : List Char → List (List Char)
  | [] => [cur.reverse]
  | c :: cs =>
    if c = '-' ∨ c = '–' then cur.reverse :: splitDash [] cs
    else splitDash (c :: cur) cs

def splitRoute (s : String) : List String :=
  (splitDash [] s.data).map fun cs => String.mk cs

/-- Model of `extractDestinationCity`: last dash-separated part of the route,
trimmed and upper-cased; the whole route if there is no dash. -/
def extractDestinationCity (route : String) : String :=
  let parts := splitRoute route
  if parts.length ≥ 2 then jsToUpper (jsTrim ((parts.getLast?).getD ""))
  else jsToUpper (jsTrim route)

/-- Model of `getCityName`. -/
def getCityName (code : String) : String :=
  (cityNames.lookup code).getD code

/-- Model of `getMonthKey`: format a date to its `YYYY-MM` month key. (`new Date`
plus `getFullYear`/`getMonth` is read off the structured date; time-zone
effects of `Date` parsing are outside the model.) -/
def getMonthKey (d : DateYMD) : String :=
  toString d.year ++ "-" ++ pad2 d.month

/-- Predicate of the `LANDING` branch of `filterPackages`. -/
def landingPred (sv : String) (p : Pkg) : Bool :=
  let destCity := extractDestinationCity p.keberangkatan.rute
  destCity = jsToUpper sv || jsToLower (getCityName destCity) = jsToLower sv

/-- Model of `filterPackages`, the main filter function. -/
def filterPackages (data : List Pkg) (params : FilterParams) : List Pkg :=
  match params.mode with
  | .semuaData => data
  | .available => data.filter fun p => ogt0 p.seatSisa
  | .promo => data.filter fun p => p.isPromo
  | .landing =>
    if falsyStr params.secondaryValue then data
    else data.filter (landingPred ((params.secondaryValue).getD ""))
  | .dataPerBulan =>
    if falsyStr params.secondaryValue then data
    else data.filter fun p =>
      getMonthKey p.keberangkatan.tgl = (params.secondaryValue).getD ""

-- ============================================
-- Claim C1
-- ============================================

/-- C1: `filterPackages` returns the expected subset: mode `AVAILABLE`
returns exactly the packages with `seatSisa > 0`, mode `PROMO` exactly
the promo packages, mode `SEMUA DATA` every package, and in every mode
the result is a subsequence of the input. -/
theorem filterPackages_subsets (data : List Pkg) (sv : Option String)
    (params : FilterParams) :
    filterPackages data ⟨.available, sv⟩ = data.filter (fun p => ogt0 p.seatSisa)
    ∧ filterPackages data ⟨.promo, sv⟩ = data.filter (fun p => p.isPromo)
    ∧ filterPackages data ⟨.semuaData, sv⟩ = data
    ∧ (filterPackages data params).Sublist data := by
  refine ⟨rfl, rfl, rfl, ?_⟩
  unfold filterPackages
  rcases params with ⟨mode, sv'⟩
  cases mode <;> simp only
  · exact List.filter_sublist data
  · split
    · exact List.Sublist.refl data
    · exact List.filter_sublist data
  · exact List.filter_sublist data
  · split
    · exact List.Sublist.refl data
    · exact List.filter_sublist data
  · exact List.Sublist.refl data

-- ============================================
-- Claim C9
-- ============================================

/-- C9: `filterPackages` in `LANDING` or `DATA PER-BULAN` mode with an
absent or empty `secondaryValue` returns the entire input list. -/
theorem filterPackages_falsy_secondary (data : List Pkg) :
    filterPackages data ⟨.landing, none⟩ = data
    ∧ filterPackages data ⟨.landing, some ""⟩ = data
    ∧ filterPackages data ⟨.dataPerBulan, none⟩ = data
    ∧ filterPackages data ⟨.dataPerBulan, some ""⟩ = data := by
  refine ⟨rfl, ?_, rfl, ?_⟩ <;> simp [filterPackages, falsyStr]

-- ============================================
-- getMinPrice and filterPackagesAdvanced
-- ============================================

/-- One iteration of the `getMinPrice` inner loop:
`if (numPrice < minPrice) minPrice = numPrice`. The accumulator is the
running minimum, `none` standing for the initial `Infinity`; a `NaN`
parse compares false and leaves the minimum unchanged. -/
def stepMin (acc : Option Int) (s : String) : Option Int :=
  match jsParseInt s with
  | none => acc
  | some n =>
    match acc with
    | none => some n
    | some m => if n < m then some n else some m

/-- The price strings `[tier.Double, tier.Triple, tier.Quard].filter(Boolean)`:
absent fields and empty strings are falsy and dropped. -/
def tierPricesMin (t : RoomPricing) : List String :=
  (([t.Double, t.Triple, t.Quard]).filterMap id).filter fun s => s ≠ ""

/-- The running minimum of `getMinPrice` over all tiers (`none` =
`Infinity`, i.e. no parseable price seen). -/
def getMinPriceAcc (pkg : Pkg) : Option Int :=
  pkg.harga.foldl (fun acc t => (tierPricesMin t.2).foldl stepMin acc) none

/-- Model of `getMinPrice` (filter utilities): minimum parsed price, `0` when the
minimum is still `Infinity`. -/
def getMinPrice (pkg : Pkg) : Int :=
  (getMinPriceAcc pkg).getD 0

inductive SortBy
  | dateAsc
  | dateDesc
  | priceAsc
  | priceDesc
deriving DecidableEq, Repr

/-- Options record of `filterPackagesAdvanced`. -/
structure AdvOptions where
  mode : Option FilterMode := none
  secondaryValue : Option String := none
  searchQuery : Option String := none
  sortBy : Option SortBy := none
deriving DecidableEq, Repr

/-- The search predicate of `filterPackagesAdvanced` step 2: name, raw
departure/return date string, or airline contains the query. -/
def advSearchPred (query : String) (p : Pkg) : Bool :=
  strIncludes (jsToLower p.nama) query
  || (strIncludes (isoStr p.keberangkatan.tgl) query
      || strIncludes (isoStr p.kepulangan.tgl) query)
  || strIncludes (jsToLower p.maskapai) query

/-- Steps 1-2 of `filterPackagesAdvanced` (mode filter, then search
filter), before any sorting. `[...data]` copies the array; contents are
unchanged. -/
def advPreSort (data : List Pkg) (mode : Option FilterMode)
    (sv sq : Option String) : List Pkg :=
  let result := data
  let result :=
    match mode with
    | some m =>
      if m = FilterMode.semuaData then result
      else filterPackages result ⟨m, sv⟩
    | none => result
  match sq with
  | some q =>
    if jsTrim q = "" then result
    else result.filter (advSearchPred (jsTrim (jsToLower q)))
  | none => result

/-- Comparator `(a, b) => timeA - timeB` as the ordering it sorts by. -/
def dateAscRel (a b : Pkg) : Prop :=
  dateKey a.keberangkatan.tgl ≤ dateKey b.keberangkatan.tgl

/-- Comparator `(a, b) => timeB - timeA` as the ordering it sorts by. -/
def dateDescRel (a b : Pkg) : Prop :=
  dateKey b.keberangkatan.tgl ≤ dateKey a.keberangkatan.tgl

/-- Comparator `(a, b) => priceA - priceB` as the ordering it sorts by. -/
def priceAscRel (a b : Pkg) : Prop :=
  getMinPrice a ≤ getMinPrice b

/-- Comparator `(a, b) => priceB - priceA` as the ordering it sorts by. -/
def priceDescRel (a b : Pkg) : Prop :=
  getMinPrice b ≤ getMinPrice a

instance : DecidableRel dateAscRel := fun _ _ => Nat.decLe _ _

instance : DecidableRel dateDescRel := fun _ _ => Nat.decLe _ _

instance : DecidableRel priceAscRel := fun _ _ => Int.decLe _ _

instance : DecidableRel priceDescRel := fun _ _ => Int.decLe _ _

instance : IsTotal Pkg dateAscRel := ⟨fun _ _ => Nat.le_total _ _⟩

instance : IsTrans Pkg dateAscRel := ⟨fun _ _ _ => Nat.le_trans⟩

instance : IsTotal Pkg dateDescRel := ⟨fun _ _ => (Nat.le_total _ _).symm⟩

instance : IsTrans Pkg dateDescRel := ⟨fun _ _ _ h h' => Nat.le_trans h' h⟩

/-- Model of `filterPackagesAdvanced`: filter pipeline then the selected in-place
sort (`Array.prototype.sort`, stable, modelled by insertion sort). -/
def filterPackagesAdvanced (data : List Pkg) (opts : AdvOptions) : List Pkg :=
  let result := advPreSort data opts.mode opts.secondaryValue opts.searchQuery
  match opts.sortBy with
  | some .dateAsc => List.insertionSort dateAscRel result
  | some .dateDesc => List.insertionSort dateDescRel result
  | some .priceAsc => List.insertionSort priceAscRel result
  | some .priceDesc => List.insertionSort priceDescRel result
  | none => result

-- ============================================
-- Claim C4
-- ============================================

/-- C4: `filterPackagesAdvanced` with `sortBy` `date_asc` returns a
permutation of its filtered (pre-sort) result ordered by non-decreasing
departure-date timestamp, and with `date_desc` by non-increasing
timestamp. -/
theorem filterPackagesAdvanced_sorts (data : List Pkg)
    (mode : Option FilterMode) (sv sq : Option String) :
    ((filterPackagesAdvanced data ⟨mode, sv, sq, some .dateAsc⟩).Perm
        (advPreSort data mode sv sq)
      ∧ List.Sorted dateAscRel
        (filterPackagesAdvanced data ⟨mode, sv, sq, some .dateAsc⟩))
    ∧ ((filterPackagesAdvanced data ⟨mode, sv, sq, some .dateDesc⟩).Perm
        (advPreSort data mode sv sq)
      ∧ List.Sorted dateDescRel
        (filterPackagesAdvanced data ⟨mode, sv, sq, some .dateDesc⟩)) :=
  ⟨⟨List.perm_insertionSort _ _, List.sorted_insertionSort _ _⟩,
   ⟨List.perm_insertionSort _ _, List.sorted_insertionSort _ _⟩⟩

-- ============================================
-- groupByMonth
-- ============================================

/-- Model of `formatMonthName`: Indonesian display name from a `YYYY-MM` key.
An out-of-range or unparseable month indexes `undefined`. -/
def formatMonthName (monthKey : String) : String :=
  let parts := splitHyphenStr monthKey
  let year := parts.headD ""
  let monthIdx : Option Int :=
    match parts.drop 1 with
    | m :: _ => (jsParseInt m).map (fun n => n - 1)
    | [] => none
  let name :=
    match monthIdx with
    | some i => if 0 ≤ i then monthNamesId.getD i.toNat "undefined" else "undefined"
    | none => "undefined"
  name ++ " " ++ year

/-- Model of `approximateHijriMonth`; the source's binary floating-point
`(gy - 2000) * 0.03` is modelled by the exact rational it approximates
(no claim depends on this display string). -/
def approximateHijriMonth (d : DateYMD) : String :=
  let hijriYear : Int := ⌊(d.year : ℚ) - 579 - ((d.year : ℚ) - 2000) * (3 / 100)⌋
  let idx := (d.month - 1 + 5) % 12
  (hijriMonthNames.getD idx "undefined") ++ " " ++ toString hijriYear

/-- A group of packages sharing a departure month. -/
structure MonthGroup where
  monthKey : String
  monthName : String
  monthNameHijri : String
  totalSeat : Option Int
  availableSeat : Option Int
  packageCount : Nat
  packages : List Pkg
deriving DecidableEq, Repr

/-- The per-key accumulator of the `groupByMonth` `Map`. -/
structure MonthAcc where
  packages : List Pkg
  totalSeat : Option Int
  availableSeat : Option Int
deriving DecidableEq, Repr

/-- The `existing` branch of the loop: `packages.push(pkg)` and the two
`+=` updates. -/
def updAcc (a : MonthAcc) (p : Pkg) : MonthAcc :=
  ⟨a.packages ++ [p], oadd a.totalSeat p.seatTotal, oadd a.availableSeat p.seatSisa⟩

/-- One loop iteration over the insertion-ordered `Map`: update the entry
with key `k` in place, or append a fresh entry at the end. -/
def upsertMonth (m : List (String × MonthAcc)) (k : String) (p : Pkg) :
    List (String × MonthAcc) :=
  match m with
  | [] => [(k, ⟨[p], p.seatTotal, p.seatSisa⟩)]
  | (k', a) :: rest =>
    if k' = k then (k', updAcc a p) :: rest
    else (k', a) :: upsertMonth rest k p

/-- The month key of a package's departure date. -/
def monthKeyOf (p : Pkg) : String := getMonthKey p.keberangkatan.tgl

/-- The `monthMap` after the `packages.forEach` loop. -/
def buildMonthMap (l : List Pkg) : List (String × MonthAcc) :=
  l.foldl (fun m p => upsertMonth m (monthKeyOf p) p) []

/-- The `.map` step turning a map entry into a `MonthGroup`. -/
def toMonthGroup : String × MonthAcc → MonthGroup
  | (k, a) =>
    { monthKey := k
      monthName := formatMonthName k
      monthNameHijri :=
        match a.packages with
        | p :: _ => approximateHijriMonth p.keberangkatan.tgl
        | [] => "undefined"
      totalSeat := a.totalSeat
      availableSeat := a.availableSeat
      packageCount := a.packages.length
      packages := a.packages }

/-- Ordering of the final `.sort((a, b) => a.monthKey.localeCompare(b.monthKey))`
(code-point comparison coincides with `localeCompare` on digit/dash keys). -/
def monthKeyLe (a b : MonthGroup) : Prop := a.monthKey ≤ b.monthKey

instance : DecidableRel monthKeyLe :=
  fun a b => inferInstanceAs (Decidable (a.monthKey ≤ b.monthKey))

instance : IsTotal MonthGroup monthKeyLe := ⟨fun a b => le_total a.monthKey b.monthKey⟩

instance : IsTrans MonthGroup monthKeyLe := ⟨fun _ _ _ => le_trans⟩

/-- Model of `groupByMonth`: group packages by departure month, sorted by key. -/
def groupByMonth (l : List Pkg) : List MonthGroup :=
  List.insertionSort monthKeyLe ((buildMonthMap l).map toMonthGroup)

-- ============================================
-- groupByMonth: canonical form of the built map
-- ============================================

/-- First-occurrence-ordered deduplicated keys (JS `Map` key order). -/
def firstKeysGo (seen : List String) : List String → List String
  | [] => []
  | k :: ks => if k ∈ seen then firstKeysGo seen ks else k :: firstKeysGo (k :: seen) ks

def firstKeys (ks : List String) : List String := firstKeysGo [] ks

/-- The `NaN`-propagating sum of `seatTotal` over a list. -/
def sumSeatT (l : List Pkg) : Option Int :=
  l.foldl (fun s p => oadd s p.seatTotal) (some 0)

/-- The `NaN`-propagating sum of `seatSisa` over a list. -/
def sumSeatS (l : List Pkg) : Option Int :=
  l.foldl (fun s p => oadd s p.seatSisa) (some 0)

/-- The intended value of the map entry for key `k` after processing `l`. -/
def specAcc (k : String) (l : List Pkg) : MonthAcc :=
  ⟨l.filter fun p => monthKeyOf p = k,
   sumSeatT (l.filter fun p => monthKeyOf p = k),
   sumSeatS (l.filter fun p => monthKeyOf p = k)⟩

/-- Canonical form of the month map: one entry per first-occurrence key. -/
def canonicalMap (l : List Pkg) : List (String × MonthAcc) :=
  (firstKeys (l.map monthKeyOf)).map fun k => (k, specAcc k l)

theorem oadd_zero_left (x : Option Int) : oadd (some 0) x = x := by
  cases x <;> simp [oadd]

theorem sumSeatT_append_one (l : List Pkg) (p : Pkg) :
    sumSeatT (l ++ [p]) = oadd (sumSeatT l) p.seatTotal := by
  simp [sumSeatT, List.foldl_append]

theorem sumSeatS_append_one (l : List Pkg) (p : Pkg) :
    sumSeatS (l ++ [p]) = oadd (sumSeatS l) p.seatSisa := by
  simp [sumSeatS, List.foldl_append]


theorem firstKeysGo_cons (seen : List String) (k : String) (ks : List String) :
    firstKeysGo seen (k :: ks)
      = if k ∈ seen then firstKeysGo seen ks else k :: firstKeysGo (k :: seen) ks := rfl

theorem upsertMonth_cons (k' : String) (a : MonthAcc)
    (rest : List (String × MonthAcc)) (k : String) (p : Pkg) :
    upsertMonth ((k', a) :: rest) k p
      = if k' = k then (k', updAcc a p) :: rest
        else (k', a) :: upsertMonth rest k p := rfl

theorem mem_firstKeysGo {a : String} {seen l : List String} :
    a ∈ firstKeysGo seen l ↔ a ∈ l ∧ a ∉ seen := by
  induction l generalizing seen with
  | nil => simp [firstKeysGo]
  | cons k ks ih =>
    by_cases hk : k ∈ seen <;> by_cases hak : a = k
    · subst hak; simp [firstKeysGo_cons, hk, ih]
    · simp [firstKeysGo_cons, hk, ih, hak]
    · subst hak; simp [firstKeysGo_cons, hk, ih]
    · simp [firstKeysGo_cons, hk, ih, hak]

theorem nodup_firstKeysGo (seen l : List String) : (firstKeysGo seen l).Nodup := by
  induction l generalizing seen with
  | nil => simp [firstKeysGo]
  | cons k ks ih =>
    by_cases hk : k ∈ seen
    · simpa [firstKeysGo_cons, hk] using ih seen
    · simp only [firstKeysGo_cons, if_neg hk, List.nodup_cons]
      refine ⟨fun hmem => ?_, ih (k :: seen)⟩
      exact (mem_firstKeysGo.mp hmem).2 (List.mem_cons_self _ _)

theorem firstKeysGo_append_one (seen l : List String) (k : String) :
    firstKeysGo seen (l ++ [k])
      = firstKeysGo seen l ++ (if k ∈ seen ∨ k ∈ l then [] else [k]) := by
  induction l generalizing seen with
  | nil => by_cases hk : k ∈ seen <;> simp [firstKeysGo, firstKeysGo_cons, hk]
  | cons a l ih =>
    show firstKeysGo seen (a :: (l ++ [k])) = _
    by_cases ha : a ∈ seen
    · rw [firstKeysGo_cons, if_pos ha, ih seen, firstKeysGo_cons, if_pos ha]
      have hcond : (k ∈ seen ∨ k ∈ l) ↔ (k ∈ seen ∨ k ∈ a :: l) := by
        constructor
        · exact fun h => h.imp id (List.mem_cons_of_mem a)
        · rintro (h | h)
          · exact Or.inl h
          · rcases List.mem_cons.mp h with rfl | h
            · exact Or.inl ha
            · exact Or.inr h
      rw [if_congr hcond rfl rfl]
    · rw [firstKeysGo_cons, if_neg ha, ih (a :: seen), firstKeysGo_cons, if_neg ha,
        List.cons_append]
      have hcond : (k ∈ a :: seen ∨ k ∈ l) ↔ (k ∈ seen ∨ k ∈ a :: l) := by
        simp only [List.mem_cons]
        tauto
      rw [if_congr hcond rfl rfl]

theorem upsertMonth_map_notMem (ks : List String) (f : String → MonthAcc)
    (k : String) (p : Pkg) (h : k ∉ ks) :
    upsertMonth (ks.map fun k' => (k', f k')) k p
      = ks.map (fun k' => (k', f k')) ++ [(k, ⟨[p], p.seatTotal, p.seatSisa⟩)] := by
  induction ks with
  | nil => rfl
  | cons a ks ih =>
    have hak : a ≠ k := fun heq => h (heq ▸ List.mem_cons_self _ _)
    rw [List.map_cons, upsertMonth_cons, if_neg hak, List.cons_append,
      ih (fun hm => h (List.mem_cons_of_mem _ hm))]

theorem upsertMonth_map_mem (ks : List String) (f : String → MonthAcc)
    (k : String) (p : Pkg) (hnd : ks.Nodup) (h : k ∈ ks) :
    upsertMonth (ks.map fun k' => (k', f k')) k p
      = ks.map fun k' => (k', if k' = k then updAcc (f k') p else f k') := by
  induction ks with
  | nil => cases h
  | cons a ks ih =>
    by_cases hak : a = k
    · subst hak
      have hnotin : a ∉ ks := (List.nodup_cons.mp hnd).1
      rw [List.map_cons, upsertMonth_cons, if_pos rfl, List.map_cons]
      congr 1
      · simp
      · refine List.map_congr_left fun x hx => ?_
        have hxa : x ≠ a := fun heq => hnotin (heq ▸ hx)
        simp [hxa]
    · have hmem : k ∈ ks := by
        rcases List.mem_cons.mp h with h' | h'
        · exact absurd h'.symm hak
        · exact h'
      rw [List.map_cons, upsertMonth_cons, if_neg hak,
        ih (List.nodup_cons.mp hnd).2 hmem, List.map_cons, if_neg hak]

theorem specAcc_append_self (L : List Pkg) (p : Pkg) :
    specAcc (monthKeyOf p) (L ++ [p]) = updAcc (specAcc (monthKeyOf p) L) p := by
  have hp : List.filter (fun q => decide (monthKeyOf q = monthKeyOf p)) [p] = [p] := by
    simp
  simp only [specAcc, updAcc, List.filter_append, hp]
  rw [sumSeatT_append_one, sumSeatS_append_one]

theorem specAcc_append_other (L : List Pkg) (p : Pkg) (k : String)
    (h : k ≠ monthKeyOf p) :
    specAcc k (L ++ [p]) = specAcc k L := by
  have hp : List.filter (fun q => decide (monthKeyOf q = k)) [p] = [] := by
    simp [Ne.symm h]
  simp only [specAcc, List.filter_append, hp, List.append_nil]

theorem canonicalMap_append_one (L : List Pkg) (p : Pkg) :
    canonicalMap (L ++ [p]) = upsertMonth (canonicalMap L) (monthKeyOf p) p := by
  by_cases hk : monthKeyOf p ∈ L.map monthKeyOf
  · have hkeys : firstKeys ((L ++ [p]).map monthKeyOf) = firstKeys (L.map monthKeyOf) := by
      rw [List.map_append]
      show firstKeysGo [] (L.map monthKeyOf ++ [monthKeyOf p]) = _
      rw [firstKeysGo_append_one]
      simp [hk, firstKeys]
    have hmemfk : monthKeyOf p ∈ firstKeys (L.map monthKeyOf) :=
      mem_firstKeysGo.mpr ⟨hk, by simp⟩
    have hnd : (firstKeys (L.map monthKeyOf)).Nodup := nodup_firstKeysGo _ _
    rw [canonicalMap, hkeys, canonicalMap,
      upsertMonth_map_mem _ _ _ _ hnd hmemfk]
    refine List.map_congr_left fun x hx => ?_
    by_cases hxk : x = monthKeyOf p
    · subst hxk; simp [specAcc_append_self]
    · simp [hxk, specAcc_append_other L p x hxk]
  · have hkeys : firstKeys ((L ++ [p]).map monthKeyOf)
        = firstKeys (L.map monthKeyOf) ++ [monthKeyOf p] := by
      rw [List.map_append]
      show firstKeysGo [] (L.map monthKeyOf ++ [monthKeyOf p]) = _
      rw [firstKeysGo_append_one]
      simp [hk, firstKeys]
    have hnotfk : monthKeyOf p ∉ firstKeys (L.map monthKeyOf) :=
      fun hmem => hk (mem_firstKeysGo.mp hmem).1
    rw [canonicalMap, hkeys, List.map_append, canonicalMap,
      upsertMonth_map_notMem _ _ _ _ hnotfk]
    congr 1
    · refine List.map_congr_left fun x hx => ?_
      have hxk : x ≠ monthKeyOf p := fun heq => hnotfk (heq ▸ hx)
      simp [specAcc_append_other L p x hxk]
    · have hfilter : L.filter (fun q => decide (monthKeyOf q = monthKeyOf p)) = [] := by
        refine List.filter_eq_nil_iff.mpr fun q hq => ?_
        simp only [decide_eq_true_eq]
        exact fun heq => hk (heq ▸ List.mem_map_of_mem monthKeyOf hq)
      simp [specAcc, List.filter_append, hfilter, sumSeatT, sumSeatS, oadd_zero_left]

theorem buildMonthMap_eq_canonical (l : List Pkg) :
    buildMonthMap l = canonicalMap l := by
  induction l using List.reverseRecOn with
  | nil => rfl
  | append_singleton L p ih =>
    rw [buildMonthMap, List.foldl_append]
    simp only [List.foldl_cons, List.foldl_nil]
    rw [show List.foldl (fun m q => upsertMonth m (monthKeyOf q) q) [] L
          = buildMonthMap L from rfl,
      ih, canonicalMap_append_one]

-- ============================================
-- Claim C5
-- ============================================

/-- C5: `groupByMonth` is a correct group-by-derived-key: the groups'
keys are pairwise distinct, each group holds exactly the input packages
whose departure month key is the group's key (so the groups partition
the input), each group's `totalSeat`/`availableSeat` are the seat sums
over its packages and `packageCount` its number of packages, every
package lands in the group of its own month key, and the groups are
sorted in ascending `monthKey` order. -/
theorem groupByMonth_correct (l : List Pkg) :
    ((groupByMonth l).map fun g => g.monthKey).Nodup
    ∧ (∀ g ∈ groupByMonth l,
        g.packages = l.filter (fun p => monthKeyOf p = g.monthKey)
        ∧ g.totalSeat = sumSeatT g.packages
        ∧ g.availableSeat = sumSeatS g.packages
        ∧ g.packageCount = g.packages.length)
    ∧ (∀ p ∈ l, ∃ g ∈ groupByMonth l, g.monthKey = monthKeyOf p ∧ p ∈ g.packages)
    ∧ List.Sorted monthKeyLe (groupByMonth l) := by
  have hperm : (groupByMonth l).Perm ((buildMonthMap l).map toMonthGroup) :=
    List.perm_insertionSort _ _
  rw [buildMonthMap_eq_canonical] at hperm
  have hshape : ∀ g, g ∈ groupByMonth l ↔
      ∃ k ∈ firstKeys (l.map monthKeyOf), g = toMonthGroup (k, specAcc k l) := by
    intro g
    rw [hperm.mem_iff, canonicalMap, List.map_map, List.mem_map]
    constructor
    · rintro ⟨k, hk, rfl⟩; exact ⟨k, hk, rfl⟩
    · rintro ⟨k, hk, rfl⟩; exact ⟨k, hk, rfl⟩
  refine ⟨?_, ?_, ?_, ?_⟩
  · have h1 : (((canonicalMap l).map toMonthGroup).map fun g => g.monthKey)
        = firstKeys (l.map monthKeyOf) := by
      simp only [canonicalMap, List.map_map]
      exact List.map_id _
    have h2 : ((groupByMonth l).map fun g => g.monthKey).Perm
        (firstKeys (l.map monthKeyOf)) := h1 ▸ hperm.map _
    exact h2.nodup_iff.mpr (nodup_firstKeysGo _ _)
  · intro g hg
    rcases (hshape g).mp hg with ⟨k, _, rfl⟩
    exact ⟨rfl, rfl, rfl, rfl⟩
  · intro p hp
    have hkmem : monthKeyOf p ∈ firstKeys (l.map monthKeyOf) :=
      mem_firstKeysGo.mpr ⟨List.mem_map_of_mem monthKeyOf hp, by simp⟩
    refine ⟨toMonthGroup (monthKeyOf p, specAcc (monthKeyOf p) l),
      (hshape _).mpr ⟨monthKeyOf p, hkmem, rfl⟩, rfl, ?_⟩
    show p ∈ l.filter fun q => decide (monthKeyOf q = monthKeyOf p)
    exact List.mem_filter.mpr ⟨hp, by simp⟩
  · exact List.sorted_insertionSort _ _

-- ============================================
-- Data service (getPackages, transformPackage)
-- ============================================

/-- Raw API record (`UmrohPackageRaw`); `paket_harga`/`paket_hotel` are
string-keyed records in entry order. -/
structure RawPkg where
  jadwal_id : String
  jadwal_nama : String
  promo : String
  seat_total : String
  seat_sisa : String
  maskapai : String
  berangkat_tgl : DateYMD
  berangkat_jam : String
  berangkat_rute : String
  berangkat_kode_penerbangan : String
  pulang_tgl : DateYMD
  pulang_jam : String
  pulang_rute : String
  pulang_kode_penerbangan : String
  manasik_tgl : String
  manasik_jam : String
  brosur : String
  itinerary : String
  perlengkapan_harga : String
  paket_harga : List (String × RoomPricing)
  paket_hotel : List (String × List (String × String))
deriving DecidableEq, Repr

/-- Model of `transformPackage`: raw record to typed `UmrohPackage`; the
`paket_hotel` loop copies every tier entry through the identity cast
`transformHotelInfo`. -/
def transformPackage (raw : RawPkg) : Pkg :=
  { jadwalId := raw.jadwal_id
    nama := raw.jadwal_nama
    isPromo := raw.promo = "1"
    seatTotal := jsParseInt raw.seat_total
    seatSisa := jsParseInt raw.seat_sisa
    maskapai := raw.maskapai
    keberangkatan :=
      { tgl := raw.berangkat_tgl
        jam := raw.berangkat_jam
        rute := raw.berangkat_rute
        kodePenerbangan := raw.berangkat_kode_penerbangan }
    kepulangan :=
      { tgl := raw.pulang_tgl
        jam := raw.pulang_jam
        rute := raw.pulang_rute
        kodePenerbangan := raw.pulang_kode_penerbangan }
    manasikTanggal := raw.manasik_tgl
    manasikJam := raw.manasik_jam
    brosurUrl := raw.brosur
    itineraryUrl := raw.itinerary
    perlengkapanHarga := raw.perlengkapan_harga
    harga := raw.paket_harga
    hotel := raw.paket_hotel }

/-- The parsed JSON body (`ApiResponse`). -/
structure ApiResponse where
  status : String
  aaData : List RawPkg
  iTotalDisplayRecords : Int
deriving DecidableEq, Repr

/-- What `response.json()` produced: a rejection carrying the
`SyntaxError`'s message, or a parsed body. -/
inductive JsonOutcome
  | parseError (msg : String)
  | parsed (data : ApiResponse)
deriving DecidableEq, Repr

/-- The outcome of the `fetch` call: a rejection (network failure or
abort; `isError` is whether the thrown value is an `Error` instance,
`msg` its message), or an HTTP response with its status and body. -/
inductive FetchOutcome
  | networkError (msg : String) (isError : Bool)
  | response (status : Nat) (body : JsonOutcome)
deriving DecidableEq, Repr

/-- Model of `Response.ok`: status in the range 200-299. -/
def httpOk (status : Nat) : Prop := 200 ≤ status ∧ status < 300

instance : DecidablePred httpOk := fun _ => inferInstanceAs (Decidable (_ ∧ _))

/-- Model of `GetPackagesResult`. -/
structure GetPackagesResult where
  success : Bool
  packages : List Pkg
  totalRecords : Int
  error : Option String
deriving DecidableEq, Repr

/-- The `catch` block's return value; `msg` is
`error instanceof Error ? error.message : 'Unknown error occurred'`. -/
def mkFailure (msg : String) : GetPackagesResult :=
  { success := false, packages := [], totalRecords := 0, error := some msg }

/-- Model of `getPackages` as a function of the fetch outcome. Every throw inside
the `try` (non-ok status, parse rejection, bad API status) lands in the
`catch`, so the function never throws and never returns partial data. -/
def getPackagesModel : FetchOutcome → GetPackagesResult
  | .networkError msg isError =>
    mkFailure (if isError then msg else "Unknown error occurred")
  | .response status body =>
    if httpOk status then
      match body with
      | .parseError msg => mkFailure msg
      | .parsed data =>
        if data.status = "ok" then
          { success := true
            packages := data.aaData.map transformPackage
            totalRecords := data.iTotalDisplayRecords
            error := none }
        else mkFailure "API returned error status"
    else mkFailure ("HTTP error! status: " ++ toString status)

-- ============================================
-- Claim C2
-- ============================================

/-- C2 counterexample: a network failure whose thrown `Error` carries an
empty message is reported with `success = false`, empty packages and
zero records, but the error message handed back is the empty string —
not a non-empty one as the claim states. -/
theorem getPackages_emptyMessage_counterexample :
    getPackagesModel (.networkError "" true)
      = { success := false, packages := [], totalRecords := 0, error := some "" }
    ∧ ¬ (∀ m, (getPackagesModel (.networkError "" true)).error = some m → m ≠ "") := by
  refine ⟨rfl, fun h => h "" rfl rfl⟩

/-- C2 amended: `getPackages` never throws; on network failure, non-ok
HTTP status, parse failure, or API status other than `ok` it returns
`success = false`, `packages = []`, `totalRecords = 0` and an error
message — the fixed messages (HTTP status, API status, non-`Error`
throw) are non-empty, while in the network/parse cases the message
equals the thrown error's message and is empty exactly when that is; on
success it returns `success = true` with `packages` exactly the
transformation of every `aaData` record. -/
theorem getPackages_error_handling (msg : String) (isError : Bool)
    (status : Nat) (body : JsonOutcome) (resp : ApiResponse) :
    (getPackagesModel (.networkError msg isError)
      = mkFailure (if isError then msg else "Unknown error occurred"))
    ∧ (¬ httpOk status →
        getPackagesModel (.response status body)
          = mkFailure ("HTTP error! status: " ++ toString status))
    ∧ (httpOk status →
        getPackagesModel (.response status (.parseError msg)) = mkFailure msg)
    ∧ (httpOk status → resp.status ≠ "ok" →
        getPackagesModel (.response status (.parsed resp))
          = mkFailure "API returned error status")
    ∧ (httpOk status → resp.status = "ok" →
        getPackagesModel (.response status (.parsed resp))
          = { success := true, packages := resp.aaData.map transformPackage,
              totalRecords := resp.iTotalDisplayRecords, error := none })
    ∧ (∀ m, (mkFailure m).success = false ∧ (mkFailure m).packages = []
        ∧ (mkFailure m).totalRecords = 0 ∧ (mkFailure m).error = some m)
    ∧ ("HTTP error! status: " ++ toString status) ≠ ""
    ∧ "API returned error status" ≠ "" ∧ "Unknown error occurred" ≠ "" := by
  refine ⟨rfl, ?_, ?_, ?_, ?_, fun m => ⟨rfl, rfl, rfl, rfl⟩, ?_, by decide, by decide⟩
  · intro h; simp [getPackagesModel, h]
  · intro h; simp [getPackagesModel, h]
  · intro h h2; simp [getPackagesModel, h, h2]
  · intro h h2; simp [getPackagesModel, h, h2]
  · intro h
    have h2 : ("HTTP error! status: " ++ toString status).data = ([] : List Char) := by
      rw [h]
    simp [String.data_append] at h2

/-- Witness for the amended C2 at concrete failure and success inputs. -/
theorem getPackages_error_handling_witness :
    getPackagesModel (.response 500 (.parseError "boom"))
      = mkFailure ("HTTP error! status: " ++ toString 500)
    ∧ getPackagesModel (.response 200 (.parseError "boom")) = mkFailure "boom"
    ∧ getPackagesModel (.response 200 (.parsed ⟨"error", [], 0⟩))
      = mkFailure "API returned error status"
    ∧ getPackagesModel (.response 200 (.parsed ⟨"ok", [], 7⟩))
      = { success := true, packages := [], totalRecords := 7, error := none } :=
  ⟨(getPackages_error_handling "boom" true 500 (.parseError "boom") ⟨"ok", [], 0⟩).2.1
      (by decide),
   (getPackages_error_handling "boom" true 200 (.parseError "boom") ⟨"ok", [], 0⟩).2.2.1
      (by decide),
   (getPackages_error_handling "boom" true 200 (.parseError "boom")
      ⟨"error", [], 0⟩).2.2.2.1 (by decide) (by decide),
   (getPackages_error_handling "boom" true 200 (.parseError "boom")
      ⟨"ok", [], 7⟩).2.2.2.2.1 (by decide) rfl⟩

-- ============================================
-- Claim C8
-- ============================================

/-- A concrete well-formed raw record used for evaluations. -/
def rawSample : RawPkg :=
  { jadwal_id := "JBU1500"
    jadwal_nama := "UMROH HEMAT"
    promo := "1"
    seat_total := "45"
    seat_sisa := "12"
    maskapai := "Saudia"
    berangkat_tgl := ⟨2026, 6, 12⟩
    berangkat_jam := "09:30"
    berangkat_rute := "CGK - JED"
    berangkat_kode_penerbangan := "SV817"
    pulang_tgl := ⟨2026, 6, 21⟩
    pulang_jam := "11:00"
    pulang_rute := "MED - CGK"
    pulang_kode_penerbangan := "SV818"
    manasik_tgl := "2026-06-01"
    manasik_jam := "08:00"
    brosur := "https://example.com/b.jpg"
    itinerary := "https://example.com/i.pdf"
    perlengkapan_harga := "1000000"
    paket_harga :=
      [("HEMAT", { Double := some "32000000", Triple := some "30000000",
                   Quard := some "29000000" })]
    paket_hotel :=
      [("HEMAT", [("mekkah_hotel", "Hotel A"), ("madinah_hotel", "Hotel B")])] }

/-- C8 counterexample: a successful fetch whose batch repeats a record
yields a successful result whose `jadwalId` values are not pairwise
distinct — `getPackages` enforces no uniqueness. -/
theorem getPackages_duplicate_ids_counterexample :
    (getPackagesModel (.response 200 (.parsed ⟨"ok", [rawSample, rawSample], 2⟩))).success
      = true
    ∧ ¬ ((getPackagesModel
          (.response 200 (.parsed ⟨"ok", [rawSample, rawSample], 2⟩))).packages.map
          fun p => p.jadwalId).Nodup := by
  refine ⟨rfl, fun hn => ?_⟩
  rw [show ((getPackagesModel
        (.response 200 (.parsed ⟨"ok", [rawSample, rawSample], 2⟩))).packages.map
        fun p => p.jadwalId) = ["JBU1500", "JBU1500"] from rfl] at hn
  simp at hn

/-- C8 amended: `getPackages` maps `jadwal_id` through verbatim, so the
returned `jadwalId` values of a successful result are pairwise distinct
exactly when the fetched batch's raw `jadwal_id` values are; the client
itself enforces nothing. -/
theorem getPackages_ids_verbatim (status : Nat) (resp : ApiResponse)
    (h1 : httpOk status) (h2 : resp.status = "ok") :
    ((getPackagesModel (.response status (.parsed resp))).packages.map
        fun p => p.jadwalId)
      = resp.aaData.map (fun r => r.jadwal_id)
    ∧ (((getPackagesModel (.response status (.parsed resp))).packages.map
          fun p => p.jadwalId).Nodup
        ↔ (resp.aaData.map fun r => r.jadwal_id).Nodup) := by
  have hmain : ((getPackagesModel (.response status (.parsed resp))).packages.map
      fun p => p.jadwalId) = resp.aaData.map (fun r => r.jadwal_id) := by
    simp [getPackagesModel, h1, h2, List.map_map, transformPackage, Function.comp]
  exact ⟨hmain, by rw [hmain]⟩

/-- Witness for the amended C8 at a concrete one-record batch. -/
theorem getPackages_ids_verbatim_witness :
    ((getPackagesModel (.response 200 (.parsed ⟨"ok", [rawSample], 1⟩))).packages.map
        fun p => p.jadwalId)
      = ["JBU1500"] := by
  rw [(getPackages_ids_verbatim 200 ⟨"ok", [rawSample], 1⟩ (by decide) rfl).1]
  rfl

-- ============================================
-- Service helpers: getMinimumPrice, sortByDepartureDate
-- ============================================

/-- One price check of the `getMinimumPrice` inner loop: skip absent or
falsy strings, parse, keep the price if positive and smaller than the
current minimum (`null` initially). -/
def stepMinPos (acc : Option Int) (s : Option String) : Option Int :=
  match s with
  | none => acc
  | some str =>
    if str = "" then acc
    else
      match jsParseInt str with
      | none => acc
      | some n =>
        if 0 < n then
          match acc with
          | none => some n
          | some m => if n < m then some n else some m
        else acc

/-- Model of `getMinimumPrice` (data service): minimum positive parsed price over
`[Quard, Triple, Double]` of every tier, `null` when none exists. -/
def getMinimumPrice (pkg : Pkg) : Option Int :=
  pkg.harga.foldl
    (fun acc t => [t.2.Quard, t.2.Triple, t.2.Double].foldl stepMinPos acc) none

/-- Model of `sortByDepartureDate`: `[...packages].sort(...)` — copies, then sorts
ascending by departure date; the input array is untouched. -/
def sortByDepartureDate (packages : List Pkg) : List Pkg :=
  List.insertionSort dateAscRel packages

-- ============================================
-- Edge-function proxies (Cloudflare Pages Functions)
-- ============================================

/-- A JS `Response` as the proxies use it: status, status text, headers
in insertion order (lookup takes the first match), body bytes/text. -/
structure JsResponse where
  status : Nat
  statusText : String
  headers : List (String × String)
  body : String
deriving DecidableEq, Repr

/-- Model of `headers.get(name)` (name already in canonical case in this model). -/
def hGet (h : List (String × String)) (name : String) : Option String :=
  match h with
  | [] => none
  | (k, v) :: rest => if k = name then some v else hGet rest name

/-- Model of `headers.set(name, value)`: replace the entry, or append it. -/
def hSet (h : List (String × String)) (name value : String) :
    List (String × String) :=
  match h with
  | [] => [(name, value)]
  | (k, v) :: rest =>
    if k = name then (name, value) :: rest else (k, v) :: hSet rest name value

theorem hGet_hSet_other (h : List (String × String)) (name value other : String)
    (hne : other ≠ name) : hGet (hSet h name value) other = hGet h other := by
  induction h with
  | nil => simp [hSet, hGet, Ne.symm hne]
  | cons kv rest ih =>
    by_cases hk : kv.1 = name
    · simp [hSet, hGet, hk, Ne.symm hne]
    · simp only [hSet, hGet, if_neg hk]
      by_cases hko : kv.1 = other <;> simp [hGet, hko, ih]

/-- Statuses for which the `Response` constructor rejects a non-null
body (the null-body statuses `101`, `204`, `205`, `304`). -/
def nullBodyStatus (status : Nat) : Prop :=
  status = 101 ∨ status = 204 ∨ status = 205 ∨ status = 304

instance : DecidablePred nullBodyStatus :=
  fun _ => inferInstanceAs (Decidable (_ ∨ _))

/-- The API proxy (`functions/api/[[path]].js`): normally it returns the
upstream body text and status with a fixed replacement header set; but
`await response.text()` always yields a string (even for an empty body),
so for a null-body upstream status the `new Response(data, ...)` call
throws a `TypeError`, landing in the `catch`, which answers 500 with
only `Content-Type` and `Access-Control-Allow-Origin` (the exact
`TypeError` message inside the JSON body is engine-defined). -/
def apiProxyOnRequest (upstream : JsResponse) : JsResponse :=
  if nullBodyStatus upstream.status then
    { status := 500
      statusText := ""
      headers :=
        [("Content-Type", "application/json"),
         ("Access-Control-Allow-Origin", "*")]
      body := "\x7b\"error\":\"Proxy error\",\"message\":\"Responses with null body status cannot have body\"\x7d" }
  else
    { status := upstream.status
      statusText := ""
      headers :=
        [("Content-Type", "application/json"),
         ("Access-Control-Allow-Origin", "*"),
         ("Access-Control-Allow-Methods", "GET, POST, OPTIONS"),
         ("Access-Control-Allow-Headers", "Content-Type"),
         ("Cache-Control", "public, max-age=60")]
      body := upstream.body }

/-- The query-parameter brochure proxy (`functions/brosur.js`, first
`onRequest`): a non-ok upstream throws into the `catch` (500); an ok
upstream is re-wrapped with status 200 and a fixed header set copying
only the upstream `Content-Type` (default `image/webp`). -/
def brosurQueryOnRequest (upstream : JsResponse) : JsResponse :=
  if httpOk upstream.status then
    { status := 200
      statusText := ""
      headers :=
        [("Content-Type", (hGet upstream.headers "Content-Type").getD "image/webp"),
         ("Access-Control-Allow-Origin", "*"),
         ("Access-Control-Allow-Methods", "GET, OPTIONS"),
         ("Cache-Control", "public, max-age=3600")]
      body := upstream.body }
  else
    { status := 500
      statusText := ""
      headers :=
        [("Content-Type", "application/json"),
         ("Access-Control-Allow-Origin", "*")]
      body := "\x7b\"error\":\"Proxy error\",\"message\":\"Failed to fetch: "
        ++ toString upstream.status ++ "\"\x7d" }

/-- The three CORS headers added by the path brochure proxy. -/
def corsNames : List String :=
  ["Access-Control-Allow-Origin", "Access-Control-Allow-Methods",
   "Access-Control-Allow-Headers"]

/-- Model of `new Headers(response.headers)` plus the three CORS `set` calls. -/
def withCors (h : List (String × String)) : List (String × String) :=
  hSet (hSet (hSet h "Access-Control-Allow-Origin" "*")
      "Access-Control-Allow-Methods" "GET, OPTIONS")
    "Access-Control-Allow-Headers" "*"

/-- The path brochure proxy (`functions/brosur.js`, second `onRequest`):
forwards the upstream status, status text, body and headers, adding the
CORS headers; an `OPTIONS` request gets an empty 204 instead. -/
def brosurPathOnRequest (method : String) (upstream : JsResponse) : JsResponse :=
  let newHeaders := withCors upstream.headers
  if method = "OPTIONS" then
    { status := 204, statusText := "", headers := newHeaders, body := "" }
  else
    { status := upstream.status
      statusText := upstream.statusText
      headers := newHeaders
      body := upstream.body }

theorem hGet_withCors_other (h : List (String × String)) (name : String)
    (hname : name ∉ corsNames) : hGet (withCors h) name = hGet h name := by
  have h1 : name ≠ "Access-Control-Allow-Headers" := by
    intro heq; exact hname (heq ▸ by simp [corsNames])
  have h2 : name ≠ "Access-Control-Allow-Methods" := by
    intro heq; exact hname (heq ▸ by simp [corsNames])
  have h3 : name ≠ "Access-Control-Allow-Origin" := by
    intro heq; exact hname (heq ▸ by simp [corsNames])
  rw [withCors, hGet_hSet_other _ _ _ _ h1, hGet_hSet_other _ _ _ _ h2,
    hGet_hSet_other _ _ _ _ h3]

-- ============================================
-- Claim C6
-- ============================================

/-- C6 counterexample: at a 200 upstream carrying an `X-Upstream`
header, the API proxy drops the header (it replaces the header set
wholesale) although it keeps the status; at a 204 upstream, the API
proxy's `Response` constructor throws and the catch answers 500, and the
query-parameter brochure proxy rewrites the status to 200 — so not all
three forwarders copy headers and status codes verbatim. -/
theorem proxies_not_verbatim_counterexample :
    (hGet (apiProxyOnRequest ⟨200, "OK", [("X-Upstream", "1")], "data"⟩).headers
        "X-Upstream" = none)
    ∧ (apiProxyOnRequest ⟨200, "OK", [("X-Upstream", "1")], "data"⟩).status = 200
    ∧ "X-Upstream" ∉ corsNames
    ∧ (apiProxyOnRequest ⟨204, "No Content", [], ""⟩).status = 500
    ∧ (brosurQueryOnRequest ⟨204, "No Content", [("X-Upstream", "1")], ""⟩).status = 200
    ∧ (204 : Nat) ≠ 200 ∧ (204 : Nat) ≠ 500 := by
  refine ⟨by decide, by decide, by decide, by decide, ?_, by decide, by decide⟩
  rw [show brosurQueryOnRequest ⟨204, "No Content", [("X-Upstream", "1")], ""⟩
      = { status := 200, statusText := "",
          headers :=
            [("Content-Type", "image/webp"),
             ("Access-Control-Allow-Origin", "*"),
             ("Access-Control-Allow-Methods", "GET, OPTIONS"),
             ("Cache-Control", "public, max-age=3600")],
          body := "" } from by simp [brosurQueryOnRequest, httpOk, hGet]]

/-- C6 amended: only the path brochure proxy forwards status, status
text and headers verbatim (apart from the three added CORS headers). The
API proxy replaces the headers with a fixed set and copies only the
status code, and only for non-null-body statuses — for a `101`, `204`,
`205` or `304` upstream its `Response` constructor throws and the catch
answers 500; the query-parameter brochure proxy returns status 200 with
a fixed header set copying only the upstream `Content-Type`. -/
theorem proxies_forwarding (method name : String) (upstream : JsResponse)
    (hm : method ≠ "OPTIONS") (hname : name ∉ corsNames) :
    (brosurPathOnRequest method upstream).status = upstream.status
    ∧ (brosurPathOnRequest method upstream).statusText = upstream.statusText
    ∧ hGet (brosurPathOnRequest method upstream).headers name
        = hGet upstream.headers name
    ∧ (brosurPathOnRequest method upstream).body = upstream.body
    ∧ (¬ nullBodyStatus upstream.status →
        (apiProxyOnRequest upstream).status = upstream.status
        ∧ (apiProxyOnRequest upstream).body = upstream.body)
    ∧ (nullBodyStatus upstream.status → (apiProxyOnRequest upstream).status = 500)
    ∧ (httpOk upstream.status → (brosurQueryOnRequest upstream).status = 200
        ∧ hGet (brosurQueryOnRequest upstream).headers "Content-Type"
          = some ((hGet upstream.headers "Content-Type").getD "image/webp")) := by
  refine ⟨?_, ?_, ?_, ?_, ?_, ?_, ?_⟩
  · simp [brosurPathOnRequest, hm]
  · simp [brosurPathOnRequest, hm]
  · simp only [brosurPathOnRequest, if_neg hm]
    exact hGet_withCors_other _ _ hname
  · simp [brosurPathOnRequest, hm]
  · intro hnb
    rw [show apiProxyOnRequest upstream
        = { status := upstream.status, statusText := "",
            headers :=
              [("Content-Type", "application/json"),
               ("Access-Control-Allow-Origin", "*"),
               ("Access-Control-Allow-Methods", "GET, POST, OPTIONS"),
               ("Access-Control-Allow-Headers", "Content-Type"),
               ("Cache-Control", "public, max-age=60")],
            body := upstream.body } from by
      simp [apiProxyOnRequest, hnb]]
    exact ⟨rfl, rfl⟩
  · intro hnb
    simp [apiProxyOnRequest, hnb]
  · intro hok
    constructor
    · simp [brosurQueryOnRequest, hok]
    · simp [brosurQueryOnRequest, hok, hGet]

/-- Witness for the amended C6 at concrete GET requests and upstream
responses (a forwarded 206 and a throwing 204). -/
theorem proxies_forwarding_witness :
    (brosurPathOnRequest "GET" ⟨206, "Partial Content", [("X-Upstream", "1")], "img"⟩).status
      = 206
    ∧ hGet (brosurPathOnRequest "GET"
        ⟨206, "Partial Content", [("X-Upstream", "1")], "img"⟩).headers "X-Upstream"
      = some "1"
    ∧ (apiProxyOnRequest ⟨206, "Partial Content", [("X-Upstream", "1")], "img"⟩).status
      = 206
    ∧ (apiProxyOnRequest ⟨204, "No Content", [], ""⟩).status = 500 := by
  have h := proxies_forwarding "GET" "X-Upstream"
    ⟨206, "Partial Content", [("X-Upstream", "1")], "img"⟩ (by decide) (by decide)
  have h2 := proxies_forwarding "GET" "X-Upstream"
    ⟨204, "No Content", [], ""⟩ (by decide) (by decide)
  exact ⟨h.1, h.2.2.1.trans rfl, (h.2.2.2.2.1 (by decide)).1,
    h2.2.2.2.2.2.1 (by decide)⟩

-- ============================================
-- Claim C7
-- ============================================

/-- C7 counterexample: the API proxy stamps `Cache-Control:
public, max-age=60` on every forwarded response, and the query-parameter
brochure proxy stamps `Cache-Control: public, max-age=3600` on every
successful one — the proxies do apply a caching policy. -/
theorem proxies_cache_control_counterexample :
    hGet (apiProxyOnRequest ⟨200, "OK", [], "data"⟩).headers "Cache-Control"
      = some "public, max-age=60"
    ∧ hGet (brosurQueryOnRequest ⟨200, "OK", [], "img"⟩).headers "Cache-Control"
      = some "public, max-age=3600" := by
  constructor
  · decide
  · rw [show brosurQueryOnRequest ⟨200, "OK", [], "img"⟩
      = { status := 200, statusText := "",
          headers :=
            [("Content-Type", "image/webp"),
             ("Access-Control-Allow-Origin", "*"),
             ("Access-Control-Allow-Methods", "GET, OPTIONS"),
             ("Cache-Control", "public, max-age=3600")],
          body := "img" } from by simp [brosurQueryOnRequest, httpOk, hGet]]
    rfl

/-- C7 amended: the API proxy sets `Cache-Control: public, max-age=60`
on every forwarded response (every non-null-body upstream status; the
catch's 500 answer for a null-body status carries no `Cache-Control`)
and the query-parameter brochure proxy sets
`Cache-Control: public, max-age=3600` on success; only the path brochure
proxy adds no caching directive of its own (its response carries exactly
the upstream `Cache-Control`, if any). -/
theorem proxies_cache_policy (method : String) (upstream : JsResponse)
    (hm : method ≠ "OPTIONS") :
    (¬ nullBodyStatus upstream.status →
      hGet (apiProxyOnRequest upstream).headers "Cache-Control"
        = some "public, max-age=60")
    ∧ (nullBodyStatus upstream.status →
      hGet (apiProxyOnRequest upstream).headers "Cache-Control" = none)
    ∧ (httpOk upstream.status →
        hGet (brosurQueryOnRequest upstream).headers "Cache-Control"
          = some "public, max-age=3600")
    ∧ hGet (brosurPathOnRequest method upstream).headers "Cache-Control"
      = hGet upstream.headers "Cache-Control" := by
  refine ⟨?_, ?_, ?_, ?_⟩
  · intro hnb
    simp [apiProxyOnRequest, hnb, hGet]
  · intro hnb
    simp [apiProxyOnRequest, hnb, hGet]
  · intro hok
    simp [brosurQueryOnRequest, hok, hGet]
  · simp only [brosurPathOnRequest, if_neg hm]
    exact hGet_withCors_other _ _ (by decide)

/-- Witness for the amended C7 at concrete GET requests and upstream
responses (a forwarded 200 and a throwing 204). -/
theorem proxies_cache_policy_witness :
    hGet (apiProxyOnRequest ⟨200, "OK", [("Cache-Control", "no-store")], "x"⟩).headers
        "Cache-Control" = some "public, max-age=60"
    ∧ hGet (apiProxyOnRequest ⟨204, "No Content", [], ""⟩).headers "Cache-Control"
      = none
    ∧ hGet (brosurPathOnRequest "GET"
          ⟨200, "OK", [("Cache-Control", "no-store")], "x"⟩).headers "Cache-Control"
      = some "no-store" := by
  have h := proxies_cache_policy "GET"
    ⟨200, "OK", [("Cache-Control", "no-store")], "x"⟩ (by decide)
  have h2 := proxies_cache_policy "GET" ⟨204, "No Content", [], ""⟩ (by decide)
  exact ⟨h.1 (by decide), h2.2.1 (by decide), h.2.2.2.trans rfl⟩

-- ============================================
-- App component: derived filtered list
-- ============================================

inductive QuickFilter
  | promo
  | urgent
  | termurah
  | rahmah
deriving DecidableEq, Repr

/-- The four `TimeRange` literals (`00-06`, `06-12`, `12-18`, `18-24`). -/
inductive TimeRange
  | r00to06
  | r06to12
  | r12to18
  | r18to24
deriving DecidableEq, Repr

/-- Whether a parsed hour matches one range (`NaN` matches none). -/
def hourMatches (hour : Option Int) (r : TimeRange) : Bool :=
  match hour with
  | none => false
  | some h =>
    match r with
    | .r00to06 => 0 ≤ h ∧ h < 6
    | .r06to12 => 6 ≤ h ∧ h < 12
    | .r12to18 => 12 ≤ h ∧ h < 18
    | .r18to24 => 18 ≤ h ∧ h ≤ 24

/-- Model of `isTimeInRanges`: parse the hour before the first `:` and test the
selected ranges; no selected range means no filtering. -/
def isTimeInRanges (timeStr : String) (ranges : List TimeRange) : Bool :=
  if ranges.isEmpty then true
  else
    let hour := jsParseInt (String.mk (timeStr.data.takeWhile fun c => c ≠ ':'))
    ranges.any (hourMatches hour)

/-- The App's inline `getMin` of the `termurah` quick filter: minimum
parsed positive price over `[Quard, Triple, Double].filter(Boolean)` of
each tier, `none` = `Infinity`. -/
def appTermurahMin (pkg : Pkg) : Option Int :=
  pkg.harga.foldl
    (fun acc t =>
      (((([t.2.Quard, t.2.Triple, t.2.Double]).filterMap id).filter
          fun s => s ≠ "")).foldl
        (fun m s =>
          match jsParseInt s with
          | none => m
          | some v =>
            if 0 < v then
              match m with
              | none => some v
              | some mm => if v < mm then some v else some mm
            else m)
        acc)
    none

/-- Ordering the `termurah` comparator `getMin(a) - getMin(b)` sorts by
(`Infinity` after every finite value; `NaN` differences tie). -/
def termurahLeB (a b : Pkg) : Bool :=
  match appTermurahMin a, appTermurahMin b with
  | some x, some y => x ≤ y
  | some _, none => true
  | none, some _ => false
  | none, none => true

def termurahRel (a b : Pkg) : Prop := termurahLeB a b = true

instance : DecidableRel termurahRel := fun _ _ => inferInstanceAs (Decidable (_ = true))

/-- Ordering the `urgent` comparator `a.seatSisa - b.seatSisa` sorts by
(`NaN` differences tie). -/
def urgentLeB (a b : Pkg) : Bool :=
  match a.seatSisa, b.seatSisa with
  | some x, some y => x ≤ y
  | _, _ => true

def urgentRel (a b : Pkg) : Prop := urgentLeB a b = true

instance : DecidableRel urgentRel := fun _ _ => inferInstanceAs (Decidable (_ = true))

/-- Model of `toLocaleDateString('id-ID', { day: 'numeric', month: 'long',
year: 'numeric' })`, e.g. `12 Oktober 2026`. -/
def idDateString (d : DateYMD) : String :=
  toString d.day ++ " " ++ (monthNamesId.getD (d.month - 1) "undefined")
    ++ " " ++ toString d.year

/-- The App's omni-search predicate: name, airline, flight codes,
landing city, hotel names across tiers, Indonesian-formatted departure
date, or raw date strings contain the query. -/
def omniSearchPred (query : String) (p : Pkg) : Bool :=
  let matchName := strIncludes (jsToLower p.nama) query
  let matchAirline := strIncludes (jsToLower p.maskapai) query
  let matchFlightCode :=
    strIncludes (jsToLower p.keberangkatan.kodePenerbangan) query
    || strIncludes (jsToLower p.kepulangan.kodePenerbangan) query
  let landingCity := ((splitSpaceDashSpaceStr p.keberangkatan.rute).drop 1).headD ""
  let matchLanding := strIncludes (jsToLower landingCity) query
  let matchHotel := p.hotel.any fun tier =>
    strIncludes (jsToLower ((tier.2.lookup "mekkah_hotel").getD "")) query
    || strIncludes (jsToLower ((tier.2.lookup "madinah_hotel").getD "")) query
  let matchDate := strIncludes (jsToLower (idDateString p.keberangkatan.tgl)) query
  let matchRawDate :=
    strIncludes (isoStr p.keberangkatan.tgl) query
    || strIncludes (isoStr p.kepulangan.tgl) query
  matchName || matchAirline || matchFlightCode || matchLanding || matchHotel
    || matchDate || matchRawDate

/-- Which branches of `filterPackages` return the input array itself
(the same reference) rather than a fresh `data.filter(...)` array. -/
def filterReturnsInput (params : FilterParams) : Bool :=
  match params.mode with
  | .semuaData => true
  | .available => false
  | .promo => false
  | .landing => falsyStr params.secondaryValue
  | .dataPerBulan => falsyStr params.secondaryValue

/-- The App's filter state feeding the `filteredPackages` memo. -/
structure AppFilterState where
  filterMode : FilterMode
  filterSecondaryValue : String
  searchQuery : String
  quickFilter : Option QuickFilter
  departureTimeRanges : List TimeRange
  returnTimeRanges : List TimeRange
deriving DecidableEq, Repr

/-- The App's `filteredPackages` memo with JS array aliasing made
explicit: returns the displayed list together with the contents of the
`packages` state array afterwards. Each pair below carries whether
`result` is still the `packages` array itself; the final
`result.sort(...)` (reached unless the quick filter is `urgent` or
`termurah`) sorts in place, so when `result` still aliases `packages`
the fetched state array is mutated. -/
def appFilteredPackages (packages : List Pkg) (st : AppFilterState) :
    List Pkg × List Pkg :=
  let params : FilterParams := ⟨st.filterMode, some st.filterSecondaryValue⟩
  let step1 : List Pkg × Bool :=
    (filterPackages packages params, filterReturnsInput params)
  let step2 : List Pkg × Bool :=
    if st.departureTimeRanges.isEmpty then step1
    else ((step1.1).filter fun p =>
      isTimeInRanges p.keberangkatan.jam st.departureTimeRanges, false)
  let step3 : List Pkg × Bool :=
    if st.returnTimeRanges.isEmpty then step2
    else ((step2.1).filter fun p =>
      isTimeInRanges p.kepulangan.jam st.returnTimeRanges, false)
  let step4 : List Pkg × Bool :=
    match st.quickFilter with
    | some .promo => ((step3.1).filter fun p => p.isPromo, false)
    | some .urgent => (List.insertionSort urgentRel step3.1, false)
    | some .termurah => (List.insertionSort termurahRel step3.1, false)
    | some .rahmah =>
      ((step3.1).filter fun p => strIncludes (jsToLower p.nama) "rahmah", false)
    | none => step3
  let step5 : List Pkg × Bool :=
    if jsTrim st.searchQuery = "" then step4
    else ((step4.1).filter (omniSearchPred (jsTrim (jsToLower st.searchQuery))), false)
  match st.quickFilter with
  | some .urgent => (step5.1, packages)
  | some .termurah => (step5.1, packages)
  | _ =>
    let sorted := List.insertionSort dateAscRel step5.1
    (sorted, if step5.2 then sorted else packages)

-- ============================================
-- Claim C3
-- ============================================

/-- A minimal concrete package for evaluations. -/
def basePkg : Pkg :=
  { jadwalId := "A1"
    nama := "PAKET A"
    isPromo := false
    seatTotal := some 40
    seatSisa := some 10
    maskapai := "Saudia"
    keberangkatan := ⟨⟨2026, 6, 1⟩, "09:00", "CGK - JED", "SV1"⟩
    kepulangan := ⟨⟨2026, 6, 10⟩, "10:00", "MED - CGK", "SV2"⟩
    manasikTanggal := ""
    manasikJam := ""
    brosurUrl := ""
    itineraryUrl := ""
    perlengkapanHarga := ""
    harga := []
    hotel := [] }

/-- A package departing a month later than `basePkg`. -/
def latePkg : Pkg :=
  { basePkg with
    jadwalId := "B2"
    keberangkatan := ⟨⟨2026, 7, 1⟩, "09:00", "CGK - JED", "SV3"⟩ }

/-- Model of `SEMUA DATA` mode with no secondary value, search, quick filter or
time ranges — the App state under which no pipeline step copies. -/
def mutationState : AppFilterState :=
  { filterMode := .semuaData
    filterSecondaryValue := ""
    searchQuery := ""
    quickFilter := none
    departureTimeRanges := []
    returnTimeRanges := [] }

/-- C3 (code bug): in `SEMUA DATA` mode `filterPackages` returns the
input array itself, and with no other filter active the App's
`filteredPackages` memo then calls `result.sort(...)` on that very
array, sorting the fetched `packages` state array in place: afterwards
the state array reads `[basePkg, latePkg]`, no longer the fetched
`[latePkg, basePkg]`. (`sortByDepartureDate`, by contrast, copies
before sorting and involves no mutation.) -/
theorem app_mutates_packages_in_place :
    filterReturnsInput ⟨.semuaData, some ""⟩ = true
    ∧ (appFilteredPackages [latePkg, basePkg] mutationState).1 = [basePkg, latePkg]
    ∧ (appFilteredPackages [latePkg, basePkg] mutationState).2 = [basePkg, latePkg]
    ∧ (appFilteredPackages [latePkg, basePkg] mutationState).2 ≠ [latePkg, basePkg]
    ∧ sortByDepartureDate [latePkg, basePkg] = [basePkg, latePkg] := by
  refine ⟨rfl, by decide, by decide, by decide, by decide⟩

-- ============================================
-- Claim C10: the two minimum-price computations
-- ============================================

/-- The defined (present) `Double`/`Triple`/`Quard` price strings of a
tier, in the order `getMinPrice` visits them. -/
def definedPrices (t : RoomPricing) : List String :=
  [t.Double, t.Triple, t.Quard].filterMap id

/-- Minimum of two prices where `none` is `+Infinity` (no price yet). -/
def pmin : Option Int → Option Int → Option Int
  | acc, none => acc
  | none, some n => some n
  | some m, some n => some (min m n)

instance : RightCommutative pmin :=
  ⟨fun b a1 a2 => by
    cases b <;> cases a1 <;> cases a2 <;> simp only [pmin] <;>
      first
      | rfl
      | (congr 1; omega)⟩

theorem pmin_eq_none {a b : Option Int} : pmin a b = none ↔ a = none ∧ b = none := by
  cases a <;> cases b <;> simp [pmin]

theorem jsParseInt_empty : jsParseInt "" = none := rfl

theorem stepMin_eq_pmin (acc : Option Int) (s : String) :
    stepMin acc s = pmin acc (jsParseInt s) := by
  unfold stepMin
  cases jsParseInt s with
  | none => cases acc <;> rfl
  | some n =>
    cases acc with
    | none => rfl
    | some m =>
      simp only [pmin]
      by_cases hnm : n < m
      · rw [if_pos hnm]
        congr 1
        omega
      · rw [if_neg hnm]
        congr 1
        omega

theorem foldl_stepMin_eq (l : List String) (acc : Option Int) :
    l.foldl stepMin acc = (l.map jsParseInt).foldl pmin acc := by
  induction l generalizing acc with
  | nil => rfl
  | cons s l ih =>
    simp only [List.foldl_cons, List.map_cons, stepMin_eq_pmin]
    exact ih _

theorem stepMinPos_eq_pmin (acc : Option Int) (str : String)
    (h : 0 < (jsParseInt str).getD 0) :
    stepMinPos acc (some str) = pmin acc (jsParseInt str) := by
  have hne : str ≠ "" := by
    intro heq
    rw [heq, jsParseInt_empty] at h
    simp at h
  cases hp : jsParseInt str with
  | none => rw [hp] at h; simp at h
  | some n =>
    rw [hp] at h
    simp only [Option.getD_some] at h
    simp only [stepMinPos, if_neg hne, hp, if_pos h]
    cases acc with
    | none => rfl
    | some m =>
      simp only [pmin]
      by_cases hnm : n < m
      · rw [if_pos hnm]
        congr 1
        omega
      · rw [if_neg hnm]
        congr 1
        omega

theorem mem_filterMap_id_iff {l : List (Option String)} {s : String} :
    s ∈ l.filterMap id ↔ some s ∈ l := by
  simp [List.mem_filterMap]

theorem foldl_stepMinPos_eq (l : List (Option String)) (acc : Option Int)
    (h : ∀ s ∈ l.filterMap id, 0 < (jsParseInt s).getD 0) :
    l.foldl stepMinPos acc = ((l.filterMap id).map jsParseInt).foldl pmin acc := by
  induction l generalizing acc with
  | nil => rfl
  | cons s l ih =>
    cases s with
    | none =>
      simp only [List.foldl_cons, List.filterMap_cons_none]
      rw [show stepMinPos acc none = acc from rfl]
      exact ih acc fun s hs => h s (by simpa using hs)
    | some str =>
      have hmem : str ∈ (some str :: l).filterMap id := by simp
      have hfm : (some str :: l).filterMap id = str :: l.filterMap id := by simp
      simp only [List.foldl_cons]
      rw [stepMinPos_eq_pmin acc str (h str hmem), hfm, List.map_cons, List.foldl_cons]
      exact ih _ fun s hs => h s (by rw [hfm]; exact List.mem_cons_of_mem _ hs)

theorem tierPricesMin_eq_defined (t : RoomPricing)
    (h : ∀ s ∈ definedPrices t, 0 < (jsParseInt s).getD 0) :
    tierPricesMin t = definedPrices t := by
  refine List.filter_eq_self.mpr fun s hs => ?_
  have hpos := h s hs
  have hne : s ≠ "" := by
    intro heq
    rw [heq, jsParseInt_empty] at hpos
    simp at hpos
  simpa using hne

theorem harga_fold_eq (hl : List (String × RoomPricing)) (acc : Option Int)
    (hpos : ∀ tp ∈ hl, ∀ s ∈ definedPrices tp.2, 0 < (jsParseInt s).getD 0) :
    hl.foldl (fun acc t => (tierPricesMin t.2).foldl stepMin acc) acc
      = hl.foldl
        (fun acc t => [t.2.Quard, t.2.Triple, t.2.Double].foldl stepMinPos acc) acc := by
  induction hl generalizing acc with
  | nil => rfl
  | cons tp hl ih =>
    have htier : ∀ s ∈ definedPrices tp.2, 0 < (jsParseInt s).getD 0 :=
      hpos tp (List.mem_cons_self _ _)
    have hQTD : ∀ s ∈ ([tp.2.Quard, tp.2.Triple, tp.2.Double]).filterMap id,
        0 < (jsParseInt s).getD 0 := by
      intro s hs
      refine htier s ?_
      rw [mem_filterMap_id_iff] at hs
      rw [definedPrices, mem_filterMap_id_iff]
      simp only [List.mem_cons, List.not_mem_nil, or_false] at hs ⊢
      tauto
    have hperm : (([tp.2.Quard, tp.2.Triple, tp.2.Double].filterMap id).map
        jsParseInt).Perm ((definedPrices tp.2).map jsParseInt) := by
      refine List.Perm.map _ (List.Perm.filterMap _ ?_)
      rw [show [tp.2.Quard, tp.2.Triple, tp.2.Double]
          = [tp.2.Double, tp.2.Triple, tp.2.Quard].reverse from rfl]
      exact List.reverse_perm _
    show List.foldl (fun acc t => (tierPricesMin t.2).foldl stepMin acc)
        ((tierPricesMin tp.2).foldl stepMin acc) hl
      = List.foldl
        (fun acc t => [t.2.Quard, t.2.Triple, t.2.Double].foldl stepMinPos acc)
        ([tp.2.Quard, tp.2.Triple, tp.2.Double].foldl stepMinPos acc) hl
    rw [tierPricesMin_eq_defined tp.2 htier, foldl_stepMin_eq,
      foldl_stepMinPos_eq _ _ hQTD, hperm.foldl_eq acc]
    exact ih _ fun tp' h' s hs => hpos tp' (List.mem_cons_of_mem _ h') s hs

theorem stepMin_some_ne_none (m : Int) (s : String) : stepMin (some m) s ≠ none := by
  unfold stepMin
  cases jsParseInt s with
  | none => simp
  | some n => by_cases hnm : n < m <;> simp [hnm]

theorem foldl_stepMin_some_ne_none (l : List String) (m : Int) :
    l.foldl stepMin (some m) ≠ none := by
  induction l generalizing m with
  | nil => simp
  | cons s l ih =>
    simp only [List.foldl_cons]
    cases hs : stepMin (some m) s with
    | none => exact absurd hs (stepMin_some_ne_none m s)
    | some m' => exact ih m'


theorem foldl_stepMin_ne_none_of_parse (l : List String) (acc : Option Int)
    (h : ∃ s ∈ l, jsParseInt s ≠ none) : l.foldl stepMin acc ≠ none := by
  induction l generalizing acc with
  | nil => rcases h with ⟨s, hs, _⟩; cases hs
  | cons s l ih =>
    simp only [List.foldl_cons]
    rcases h with ⟨s', hs', hp⟩
    rcases List.mem_cons.mp hs' with rfl | htl
    · rcases Option.ne_none_iff_exists'.mp hp with ⟨n, hparse⟩
      have hsome : ∃ m, stepMin acc s' = some m := by
        rw [stepMin_eq_pmin, hparse]
        cases acc with
        | none => exact ⟨n, rfl⟩
        | some m => exact ⟨min m n, rfl⟩
      rcases hsome with ⟨m, hm⟩
      rw [hm]
      exact foldl_stepMin_some_ne_none l m
    · exact ih _ ⟨s', htl, hp⟩

theorem harga_fold_some_ne_none (hl : List (String × RoomPricing)) (m : Int) :
    hl.foldl (fun acc t => (tierPricesMin t.2).foldl stepMin acc) (some m) ≠ none := by
  induction hl generalizing m with
  | nil => simp
  | cons tp hl ih =>
    simp only [List.foldl_cons]
    cases hs : (tierPricesMin tp.2).foldl stepMin (some m) with
    | none => exact absurd hs (foldl_stepMin_some_ne_none _ m)
    | some m' => exact ih m'

theorem harga_fold_ne_none (hl : List (String × RoomPricing)) (acc : Option Int)
    (hex : ∃ tp ∈ hl, ∃ s ∈ tierPricesMin tp.2, jsParseInt s ≠ none) :
    hl.foldl (fun acc t => (tierPricesMin t.2).foldl stepMin acc) acc ≠ none := by
  induction hl generalizing acc with
  | nil => rcases hex with ⟨tp, htp, _⟩; cases htp
  | cons tp hl ih =>
    simp only [List.foldl_cons]
    rcases hex with ⟨tp', htp', hs⟩
    rcases List.mem_cons.mp htp' with rfl | htl
    · cases hm : (tierPricesMin tp'.2).foldl stepMin acc with
      | none => exact absurd hm (foldl_stepMin_ne_none_of_parse _ _ hs)
      | some m' => exact harga_fold_some_ne_none hl m'
    · exact ih _ ⟨tp', htl, hs⟩

theorem foldl_stepMin_id (l : List String) (acc : Option Int)
    (h : ∀ s ∈ l, jsParseInt s = none) : l.foldl stepMin acc = acc := by
  induction l generalizing acc with
  | nil => rfl
  | cons s l ih =>
    simp only [List.foldl_cons]
    rw [show stepMin acc s = acc from by
      rw [stepMin_eq_pmin, h s (List.mem_cons_self _ _)]
      cases acc <;> rfl]
    exact ih _ fun s' hs' => h s' (List.mem_cons_of_mem _ hs')

theorem stepMinPos_nonpos (acc : Option Int) (str : String)
    (h : (jsParseInt str).getD 0 ≤ 0) : stepMinPos acc (some str) = acc := by
  by_cases hne : str = ""
  · simp [stepMinPos, hne]
  · cases hp : jsParseInt str with
    | none => simp [stepMinPos, hne, hp]
    | some n =>
      rw [hp, Option.getD_some] at h
      have h0 : ¬ ((0 : Int) < n) := by omega
      simp [stepMinPos, hne, hp, h0]

theorem foldl_stepMinPos_id (l : List (Option String)) (acc : Option Int)
    (h : ∀ s ∈ l.filterMap id, (jsParseInt s).getD 0 ≤ 0) :
    l.foldl stepMinPos acc = acc := by
  induction l generalizing acc with
  | nil => rfl
  | cons s l ih =>
    cases s with
    | none =>
      simp only [List.foldl_cons]
      rw [show stepMinPos acc none = acc from rfl]
      exact ih _ fun s' hs' => h s' (by simpa using hs')
    | some str =>
      have hfm : (some str :: l).filterMap id = str :: l.filterMap id := by simp
      have hstr := h str (by rw [hfm]; exact List.mem_cons_self _ _)
      simp only [List.foldl_cons]
      rw [stepMinPos_nonpos acc str hstr]
      exact ih _ fun s' hs' => h s' (by rw [hfm]; exact List.mem_cons_of_mem _ hs')

theorem harga_fold_stepMinPos_id (hl : List (String × RoomPricing)) (acc : Option Int)
    (h : ∀ tp ∈ hl, ∀ s ∈ definedPrices tp.2, (jsParseInt s).getD 0 ≤ 0) :
    hl.foldl (fun acc t => [t.2.Quard, t.2.Triple, t.2.Double].foldl stepMinPos acc) acc
      = acc := by
  induction hl generalizing acc with
  | nil => rfl
  | cons tp hl ih =>
    have hsub : ∀ s ∈ ([tp.2.Quard, tp.2.Triple, tp.2.Double]).filterMap id,
        (jsParseInt s).getD 0 ≤ 0 := by
      intro s hs
      refine h tp (List.mem_cons_self _ _) s ?_
      rw [mem_filterMap_id_iff] at hs
      rw [definedPrices, mem_filterMap_id_iff]
      simp only [List.mem_cons, List.not_mem_nil, or_false] at hs ⊢
      tauto
    show List.foldl (fun acc t => [t.2.Quard, t.2.Triple, t.2.Double].foldl stepMinPos acc)
        ([tp.2.Quard, tp.2.Triple, tp.2.Double].foldl stepMinPos acc) hl = acc
    rw [foldl_stepMinPos_id _ _ hsub]
    exact ih _ fun tp' h' s hs => h tp' (List.mem_cons_of_mem _ h') s hs

theorem harga_fold_stepMin_id (hl : List (String × RoomPricing)) (acc : Option Int)
    (h : ∀ tp ∈ hl, ∀ s ∈ definedPrices tp.2, jsParseInt s = none) :
    hl.foldl (fun acc t => (tierPricesMin t.2).foldl stepMin acc) acc = acc := by
  induction hl generalizing acc with
  | nil => rfl
  | cons tp hl ih =>
    have hsub : ∀ s ∈ tierPricesMin tp.2, jsParseInt s = none := by
      intro s hs
      have hs2 : s ∈ definedPrices tp.2 := List.mem_of_mem_filter hs
      exact h tp (List.mem_cons_self _ _) s hs2
    show List.foldl (fun acc t => (tierPricesMin t.2).foldl stepMin acc)
        ((tierPricesMin tp.2).foldl stepMin acc) hl = acc
    rw [foldl_stepMin_id _ _ hsub]
    exact ih _ fun tp' h' s hs => h tp' (List.mem_cons_of_mem _ h') s hs

/-- C10 amended: the two minimum-price computations agree on positive
prices — when every defined `Double`/`Triple`/`Quard` price string in
every tier parses to a positive integer and at least one exists,
`getMinPrice` and `getMinimumPrice` return the same value; when no
parseable price exists at all, `getMinPrice` returns `0` and
`getMinimumPrice` returns `null`; and whenever no positive parseable
price exists `getMinimumPrice` returns `null` (while `getMinPrice`
returns the minimum of whatever parses, possibly negative or zero, not
necessarily `0`). -/
theorem minPrice_agreement (pkg : Pkg) :
    ((∀ tp ∈ pkg.harga, ∀ s ∈ definedPrices tp.2, 0 < (jsParseInt s).getD 0) →
      (∃ tp ∈ pkg.harga, definedPrices tp.2 ≠ []) →
      getMinimumPrice pkg = some (getMinPrice pkg))
    ∧ ((∀ tp ∈ pkg.harga, ∀ s ∈ definedPrices tp.2, jsParseInt s = none) →
      getMinPrice pkg = 0 ∧ getMinimumPrice pkg = none)
    ∧ ((∀ tp ∈ pkg.harga, ∀ s ∈ definedPrices tp.2, (jsParseInt s).getD 0 ≤ 0) →
      getMinimumPrice pkg = none) := by
  refine ⟨fun hpos hex => ?_, fun hnone => ⟨?_, ?_⟩, fun hnp => ?_⟩
  · have heq : getMinPriceAcc pkg = getMinimumPrice pkg :=
      harga_fold_eq pkg.harga none hpos
    have hex2 : ∃ tp ∈ pkg.harga, ∃ s ∈ tierPricesMin tp.2, jsParseInt s ≠ none := by
      rcases hex with ⟨tp, htp, hne⟩
      rcases List.exists_mem_of_ne_nil _ hne with ⟨s, hs⟩
      have hpos2 := hpos tp htp s hs
      refine ⟨tp, htp, s, ?_, ?_⟩
      · rw [tierPricesMin_eq_defined tp.2 (hpos tp htp)]
        exact hs
      · intro hp
        rw [hp] at hpos2
        simp at hpos2
    have hne : getMinPriceAcc pkg ≠ none := harga_fold_ne_none pkg.harga none hex2
    rcases Option.ne_none_iff_exists'.mp hne with ⟨m, hm⟩
    rw [← heq, hm, getMinPrice, hm]
    rfl
  · have hz : getMinPriceAcc pkg = none := by
      have := harga_fold_stepMin_id pkg.harga none hnone
      exact this
    rw [getMinPrice, hz]
    rfl
  · have : ∀ tp ∈ pkg.harga, ∀ s ∈ definedPrices tp.2, (jsParseInt s).getD 0 ≤ 0 := by
      intro tp htp s hs
      rw [hnone tp htp s hs]
      simp
    exact harga_fold_stepMinPos_id pkg.harga none this
  · exact harga_fold_stepMinPos_id pkg.harga none hnp

/-- A package whose only price string parses to a negative number. -/
def negPricePkg : Pkg :=
  { basePkg with harga := [("PROMO", { Double := some "-5" })] }

/-- C10 counterexample: `negPricePkg` has no positive parseable price
(its only defined price string parses to `-5`), yet `getMinPrice`
returns `-5`, not `0` as the claim states (`getMinimumPrice` does
return `null`). -/
theorem minPrice_negative_counterexample :
    definedPrices { Double := some "-5" } = ["-5"]
    ∧ jsParseInt "-5" = some (-5)
    ∧ ((-5 : Int) < 0)
    ∧ getMinPrice negPricePkg = -5
    ∧ getMinimumPrice negPricePkg = none
    ∧ getMinPrice negPricePkg ≠ 0 := by
  refine ⟨by decide, by decide, by decide, by decide, by decide, by decide⟩

/-- A package with three positive price strings in one tier. -/
def posPricePkg : Pkg :=
  { basePkg with
    harga :=
      [("HEMAT", { Double := some "32000000", Triple := some "30000000",
                   Quard := some "29000000" })] }

/-- Witness for the amended C10: on an all-positive package the two
computations agree (at the tier minimum `29000000`), and on a package
with no prices `getMinPrice` is `0` and `getMinimumPrice` is `null`. -/
theorem minPrice_agreement_witness :
    getMinimumPrice posPricePkg = some (getMinPrice posPricePkg)
    ∧ getMinPrice posPricePkg = 29000000
    ∧ getMinPrice basePkg = 0 ∧ getMinimumPrice basePkg = none :=
  ⟨(minPrice_agreement posPricePkg).1 (by decide) (by decide), by decide,
   (minPrice_agreement basePkg).2.1 (by decide)⟩
